import Mathlib

/-
  Shallow embedding of src/sample/1_glTFViewer/gltfViewer.cpp (BerkeleyGfx sample).

  Modelling conventions:
  * C++ numeric types: size_t and accessor counts become Nat; int fields of the
    tinygltf data model become Int (negative values are sentinels, e.g. node.mesh);
    the uint32_t casts in the DrawCmd record keep the truncation explicitly as
    a reduction modulo 2^32 (the function U32 below).
  * Bytes of glTF binary buffers are Fin 256; multi-byte values are read
    little-endian, as the x86 pointer casts in the C++ do.
  * 32-bit floats that the program copies verbatim from buffers (vertex
    positions) are modelled by their raw 32-bit little-endian words: the program
    never does arithmetic on them.  Float literals that the program writes
    itself (the vertex color 0.7, matrix entries) are modelled as exact
    rationals.
  * The double entries of node.matrix and the glm 4x4 matrices are modelled
    over the rationals; glm operator* is the mathematical matrix product.
  * The mutable globals (vertices, indicies, drawObjects, viewMtx, projMtx)
    become explicit state records; the recursion of load_gltf_node gets an
    explicit fuel parameter, fuel exhaustion standing for non-termination.
  * External library functions not part of this repository (glm::lookAt,
    glm::perspective together with the cos/sin camera path, and the packed
    element size that tinygltf computes from componentType and type inside
    Accessor::ByteStride) are abstracted: the first two as function parameters,
    the last as the Accessor field packedStride.
-/

namespace GltfViewer

/-- A byte of a glTF binary buffer. -/
abbrev Byte := Fin 256

/-- A 4x4 matrix over the rationals, the model of glm mat4. -/
structure Mat4 where
  entry : Fin 4 → Fin 4 → ℚ
deriving DecidableEq

/-- The identity matrix, glm mat4 constructed from 1.0. -/
def mat4Id : Mat4 := ⟨fun r c => if r = c then 1 else 0⟩

/-- The mathematical matrix product, the model of glm operator*. -/
def mat4Mul (A B : Mat4) : Mat4 :=
  ⟨fun r c => ∑ k : Fin 4, A.entry r k * B.entry k c⟩

/-- The glm mat4 constructor applied to 16 scalars taken from a list:
argument k fills column k / 4, row k % 4, so entry (r, c) is element 4*c + r.
Out-of-range positions default to 0 (they are never reached when the list has
16 elements). -/
def mat4OfList (l : List ℚ) : Mat4 :=
  ⟨fun r c => l.getD (4 * c.val + r.val) 0⟩

/-- tinygltf Accessor (the fields the sample reads).  packedStride abstracts
the element size that the external library computes from componentType and
type when the buffer view is tightly packed. -/
structure Accessor where
  count : Nat
  byteOffset : Nat
  bufferView : Int
  componentType : Int
  packedStride : Nat
deriving DecidableEq

instance : Inhabited Accessor := ⟨⟨0, 0, -1, -1, 0⟩⟩

/-- tinygltf BufferView (the fields the sample reads). -/
structure BufferView where
  buffer : Int
  byteOffset : Nat
  byteStride : Nat
deriving DecidableEq

instance : Inhabited BufferView := ⟨⟨-1, 0, 0⟩⟩

/-- tinygltf Buffer: raw bytes. -/
structure GBuffer where
  data : List Byte
deriving DecidableEq

instance : Inhabited GBuffer := ⟨⟨[]⟩⟩

/-- tinygltf Primitive: the attribute map (operator[] on a missing key
default-inserts accessor index 0, modelled by getD 0 on an association list)
and the index accessor. -/
structure Primitive where
  attributes : List (String × Int)
  indices : Int
deriving DecidableEq

instance : Inhabited Primitive := ⟨⟨[], -1⟩⟩

/-- tinygltf Mesh. -/
structure Mesh where
  primitives : List Primitive
deriving DecidableEq

instance : Inhabited Mesh := ⟨⟨[]⟩⟩

/-- tinygltf Node (the fields the sample reads). -/
structure Node where
  matrix : List ℚ
  mesh : Int
  children : List Int
deriving DecidableEq

instance : Inhabited Node := ⟨⟨[], -1, []⟩⟩

/-- tinygltf Scene. -/
structure Scene where
  nodes : List Int
deriving DecidableEq

instance : Inhabited Scene := ⟨⟨[]⟩⟩

/-- tinygltf Model (the fields the sample reads). -/
structure Model where
  nodes : List Node
  meshes : List Mesh
  accessors : List Accessor
  bufferViews : List BufferView
  buffers : List GBuffer
  scenes : List Scene
  defaultScene : Int
deriving DecidableEq

instance : Inhabited Model := ⟨⟨[], [], [], [], [], [], -1⟩⟩

/-- tinygltf Accessor::ByteStride: the byteStride of the buffer view, or, when
that is 0 (tightly packed), the element size computed from componentType and
type by the external library, abstracted as the field packedStride. -/
def Accessor.ByteStride (a : Accessor) (bv : BufferView) : Nat :=
  if bv.byteStride = 0 then a.packedStride else bv.byteStride

/-- Reading one byte (out-of-range reads, undefined behavior in the C++, are
totalized to 0). -/
def readByte (d : List Byte) (i : Nat) : Nat := (d.getD i 0).val

/-- Little-endian 16-bit read: the model of dereferencing a uint16_t pointer
into the buffer on x86. -/
def readU16le (d : List Byte) (i : Nat) : Nat :=
  readByte d i + 256 * readByte d (i + 1)

/-- Little-endian 32-bit read: the raw word of one float dereferenced from the
buffer. -/
def readU32le (d : List Byte) (i : Nat) : Nat :=
  readByte d i + 256 * readByte d (i + 1) + 65536 * readByte d (i + 2) +
    16777216 * readByte d (i + 3)

/-- Truncation to uint32_t. -/
def U32 (n : Nat) : Nat := n % 4294967296

/-- The Vertex record of the sample: pos holds the three raw 32-bit float
words copied from the POSITION accessor, color the flat color literal. -/
structure Vertex where
  pos : Nat × Nat × Nat
  color : ℚ × ℚ × ℚ
deriving DecidableEq

/-- The DrawCmd record of the sample. -/
structure DrawCmd where
  indexCount : Nat
  firstIndex : Nat
  vertexOffset : Nat
  transform : Mat4
deriving DecidableEq

/-- The three mutable global buffers filled by flattening: vertices, indicies
(spelling of the source) and drawObjects. -/
structure GState where
  vertices : List Vertex
  indicies : List Nat
  drawObjects : List DrawCmd
deriving DecidableEq

/-- The empty initial global state of the program. -/
def emptyGState : GState := ⟨[], [], []⟩

/-- model.accessors[primitive.attributes["POSITION"]]. -/
def posAccOf (model : Model) (prim : Primitive) : Accessor :=
  model.accessors.getD ((prim.attributes.lookup "POSITION").getD 0).toNat default

/-- model.bufferViews[positionAccessor.bufferView]. -/
def posViewOf (model : Model) (prim : Primitive) : BufferView :=
  model.bufferViews.getD (posAccOf model prim).bufferView.toNat default

/-- model.buffers[positionBufferView.buffer]. -/
def posBufOf (model : Model) (prim : Primitive) : GBuffer :=
  model.buffers.getD (posViewOf model prim).buffer.toNat default

/-- model.accessors[primitive.indices]. -/
def idxAccOf (model : Model) (prim : Primitive) : Accessor :=
  model.accessors.getD prim.indices.toNat default

/-- model.bufferViews[indexAccessor.bufferView]. -/
def idxViewOf (model : Model) (prim : Primitive) : BufferView :=
  model.bufferViews.getD (idxAccOf model prim).bufferView.toNat default

/-- model.buffers[indexBufferView.buffer]. -/
def idxBufOf (model : Model) (prim : Primitive) : GBuffer :=
  model.buffers.getD (idxViewOf model prim).buffer.toNat default

/-- Base byte address of vertex number i of a primitive:
positionBufferView.byteOffset + positionAccessor.byteOffset +
positionBufferStride * i. -/
def posBase (model : Model) (prim : Primitive) (i : Nat) : Nat :=
  (posViewOf model prim).byteOffset + (posAccOf model prim).byteOffset +
    (posAccOf model prim).ByteStride (posViewOf model prim) * i

/-- Byte address of index number i of a primitive. -/
def idxBase (model : Model) (prim : Primitive) (i : Nat) : Nat :=
  (idxViewOf model prim).byteOffset + (idxAccOf model prim).byteOffset +
    (idxAccOf model prim).ByteStride (idxViewOf model prim) * i

/-- The vertices pushed for one primitive: three consecutive floats for pos
(raw words at the base address, base + 4, base + 8) and the constant color
glm vec3(0.7). -/
def vertexData (model : Model) (prim : Primitive) : List Vertex :=
  (List.range (posAccOf model prim).count).map fun i =>
    { pos := (readU32le (posBufOf model prim).data (posBase model prim i),
              readU32le (posBufOf model prim).data (posBase model prim i + 4),
              readU32le (posBufOf model prim).data (posBase model prim i + 8)),
      color := (7/10, 7/10, 7/10) }

/-- The indices pushed for one primitive: a 16-bit unsigned read widened to
uint32_t (exact, no truncation). -/
def indexData (model : Model) (prim : Primitive) : List Nat :=
  (List.range (idxAccOf model prim).count).map fun i =>
    readU16le (idxBufOf model prim).data (idxBase model prim i)

/-- The body of the primitive loop of load_gltf_node: push all vertices, push
all indices, append one DrawCmd recording the pre-push buffer sizes (cast to
uint32_t) and the accumulated transform. -/
def primStep (model : Model) (A : Mat4) (s : GState) (prim : Primitive) : GState :=
  { vertices := s.vertices ++ vertexData model prim,
    indicies := s.indicies ++ indexData model prim,
    drawObjects := s.drawObjects ++
      [⟨U32 (idxAccOf model prim).count, U32 s.indicies.length,
        U32 s.vertices.length, A⟩] }

/-- The primitive loop over all primitives of a mesh. -/
def meshStep (model : Model) (mesh : Mesh) (A : Mat4) (s : GState) : GState :=
  mesh.primitives.foldl (primStep model A) s

/-- The local transform of a node: the glm mat4 built from node.matrix when it
has 16 elements, identity otherwise. -/
def localOf (node : Node) : Mat4 :=
  if node.matrix.length = 16 then mat4OfList node.matrix else mat4Id

/-- The mesh branch of load_gltf_node: runs the primitive loop when
node.mesh >= 0, otherwise leaves the state unchanged. -/
def meshVisit (model : Model) (node : Node) (A : Mat4) (s : GState) : GState :=
  if 0 ≤ node.mesh then meshStep model (model.meshes.getD node.mesh.toNat default) A s
  else s

/-- The child loop: sequentially recurse into a list of child node ids,
propagating the state; none propagates fuel exhaustion. -/
def foldNodes (f : Int → GState → Option GState) : List Int → GState → Option GState
  | [], s => some s
  | c :: cs, s =>
    match f c s with
    | none => none
    | some s2 => foldNodes f cs s2

/-- load_gltf_node with explicit fuel: reads the node, builds the local
transform, multiplies it on the left of the accumulated transform of the
parent, visits the mesh, recurses into the children. -/
def load_gltf_node (model : Model) : Nat → Int → Mat4 → GState → Option GState
  | 0, _, _, _ => none
  | fuel + 1, nodeId, transform, s =>
    let node := model.nodes.getD nodeId.toNat default
    let localTransform := mat4Mul (localOf node) transform
    let s1 := meshVisit model node localTransform s
    foldNodes (fun c st => load_gltf_node model fuel c localTransform st)
      node.children s1

/-- The loop of load_gltf_model over the root nodes of the default scene,
starting every root from the identity transform.  The fuel bound
model.nodes.length + 1 covers every acyclic model: a recursion path repeats a
node before exceeding it. -/
def sceneFold (model : Model) (s0 : GState) : Option GState :=
  foldNodes
    (fun r st => load_gltf_node model (model.nodes.length + 1) r mat4Id st)
    (model.scenes.getD model.defaultScene.toNat default).nodes s0

/-- Outcome of load_gltf_model: a thrown runtime error together with the
global state at the throw, normal completion, or fuel exhaustion of the
traversal (non-termination of the C++ on a cyclic node graph). -/
inductive LoadOutcome where
  | threw (msg : String) (state : GState)
  | finished (state : GState)
  | outOfFuel
deriving DecidableEq

/-- load_gltf_model: the loader result is (ret, err, warn); a non-empty warn
is only logged, a non-empty err throws, then a false ret throws, and only
then does the flattening of the default scene run. -/
def load_gltf_model (ret : Bool) (err warn : String) (model : Model)
    (s0 : GState) : LoadOutcome :=
  if err ≠ "" then LoadOutcome.threw "glTF parsing error" s0
  else if ret = false then LoadOutcome.threw "Fail to parse glTF" s0
  else
    match sceneFold model s0 with
    | some s => LoadOutcome.finished s
    | none => LoadOutcome.outOfFuel

/-- The per-draw uniform record of the sample. -/
structure ShaderUniform where
  modelMtx : Mat4
  viewProjMtx : Mat4
deriving DecidableEq

/-- The full mutable state the render callback can reach: the three geometry
globals, the two camera matrix globals, and the mapped uniform buffer (a slot
to ShaderUniform map). -/
structure RState where
  vertices : List Vertex
  indicies : List Nat
  drawObjects : List DrawCmd
  viewMtx : Mat4
  projMtx : Mat4
  uniforms : Nat → ShaderUniform

/-- The per-frame context handed to the render callback: elapsed time, the
swapchain image index, and the window size. -/
structure FrameCtx where
  time : ℚ
  imageIndex : Nat
  width : Nat
  height : Nat

/-- projMtx[1][1] *= -1.0: negate the diagonal entry in row 1, column 1. -/
def flip11 (M : Mat4) : Mat4 :=
  ⟨fun r c => if r = 1 ∧ c = 1 then -(M.entry r c) else M.entry r c⟩

/-- Point update of the mapped uniform buffer. -/
def updateAt (buf : Nat → ShaderUniform) (k : Nat) (v : ShaderUniform) :
    Nat → ShaderUniform :=
  fun j => if j = k then v else buf j

/-- The uniform write loop of the render callback: for draw counter i starting
at i0, write slot base + i with the transform of the draw command and the
shared view-projection matrix. -/
def writeUniformLoop (VP : Mat4) (base : Nat) :
    List DrawCmd → Nat → (Nat → ShaderUniform) → Nat → ShaderUniform
  | [], _, buf => buf
  | d :: ds, i, buf =>
    writeUniformLoop VP base ds (i + 1) (updateAt buf (base + i) ⟨d.transform, VP⟩)

/-- The render callback of main.  viewFn abstracts
glm lookAt(vec3(cos t, cos(t*0.5), sin t), vec3(0), vec3(0,1,0)) as a function
of the frame time; projFn abstracts glm perspective(radians(45), aspect, 0.1,
10) as a function of the aspect ratio; both are external library code.  The
callback recomputes viewMtx and projMtx (with the [1][1] sign flip), then
writes one ShaderUniform per draw command at slot
imageIndex * drawObjects.length + i. -/
def renderFrame (viewFn : ℚ → Mat4) (projFn : ℚ → Mat4) (ctx : FrameCtx)
    (s : RState) : RState :=
  let V := viewFn ctx.time
  let P := flip11 (projFn ((ctx.width : ℚ) / (ctx.height : ℚ)))
  { s with
    viewMtx := V,
    projMtx := P,
    uniforms := writeUniformLoop (mat4Mul P V)
      (ctx.imageIndex * s.drawObjects.length) s.drawObjects 0 s.uniforms }

/-- A whole run of the render loop: one renderFrame per frame context. -/
def runFrames (viewFn : ℚ → Mat4) (projFn : ℚ → Mat4) (ctxs : List FrameCtx)
    (s : RState) : RState :=
  ctxs.foldl (fun st c => renderFrame viewFn projFn c st) s

/-- Every DrawCmd currently recorded points inside the current buffers. -/
def DrawInv (s : GState) : Prop :=
  ∀ d ∈ s.drawObjects,
    d.firstIndex + d.indexCount ≤ s.indicies.length ∧
    d.vertexOffset ≤ s.vertices.length

/-- One state extends another by appending: the buffers only grow, every
appended index value fits in 16 bits, and the DrawCmd bounds invariant is
preserved. -/
def Progress (s s' : GState) : Prop :=
  (∃ lv, s'.vertices = s.vertices ++ lv) ∧
  (∃ li, s'.indicies = s.indicies ++ li ∧ ∀ x ∈ li, x < 65536) ∧
  (∃ ld, s'.drawObjects = s.drawObjects ++ ld) ∧
  (DrawInv s → DrawInv s')

/-- Follows the words of claim C1: the accumulated transform of a node is the
local transform of the node (the 4x4 matrix built from node.matrix when it has
exactly 16 elements, the identity otherwise) multiplied by the accumulated
transform of its parent. -/
def claimAcc (model : Model) (nodeId : Int) (parentAcc : Mat4) : Mat4 :=
  mat4Mul
    (if (model.nodes.getD nodeId.toNat default).matrix.length = 16
     then mat4OfList (model.nodes.getD nodeId.toNat default).matrix
     else mat4Id)
    parentAcc

/-- The node-children relation of a model: c is a child of p. -/
def childRel (model : Model) (c p : Int) : Prop :=
  c ∈ (model.nodes.getD p.toNat default).children

/-! Concrete sample data used by the witnesses: a model with one node whose
mesh has one primitive, 1 vertex (12 position bytes) and 2 indices (the
16-bit values 5 and 7). -/

def B0 : GBuffer := ⟨[0, 0, 0, 0, 0, 0, 128, 63, 0, 0, 0, 64, 5, 0, 7, 0]⟩

def V0 : BufferView := ⟨0, 0, 0⟩

def APos : Accessor := ⟨1, 0, 0, 5126, 12⟩

def AIdx : Accessor := ⟨2, 12, 0, 5123, 2⟩

def P0 : Primitive := ⟨[("POSITION", 0)], 1⟩

def Me0 : Mesh := ⟨[P0]⟩

def N0 : Node := ⟨[], 0, []⟩

def Sc0 : Scene := ⟨[0]⟩

/-- A node carrying a full 16-element matrix (and no mesh, no children). -/
def N16 : Node :=
  ⟨[1, 0, 0, 0, 0, 1, 0, 0, 0, 0, 1, 0, 3, 4, 5, 1], -1, []⟩

/-- A meshless node. -/
def NM : Node := ⟨[], -1, []⟩

/-- A model whose only node has no mesh. -/
def MNoMesh : Model := ⟨[NM], [], [], [], [], [⟨[0]⟩], 0⟩

def M0 : Model := ⟨[N0], [Me0], [APos, AIdx], [V0], [B0], [Sc0], 0⟩

/-- A concrete render state with a single draw command, for the witnesses. -/
def RS0 : RState :=
  ⟨[], [], [⟨3, 0, 0, mat4Id⟩], mat4Id, mat4Id, fun _ => ⟨mat4Id, mat4Id⟩⟩

/-- The state produced by flattening M0 from the empty state: one vertex (the
raw words of the floats 0.0, 1.0, 2.0), the two indices 5 and 7, and one draw
command. -/
def GS1 : GState :=
  ⟨[⟨(0, 1065353216, 1073741824), (7/10, 7/10, 7/10)⟩], [5, 7],
   [⟨2, 0, 0, mat4Mul mat4Id mat4Id⟩]⟩

/-! Helper lemmas about the flattening. -/

theorem readU16le_lt (d : List Byte) (i : Nat) : readU16le d i < 65536 := by
  have h1 : readByte d i < 256 := (d.getD i 0).isLt
  have h2 : readByte d (i + 1) < 256 := (d.getD (i + 1) 0).isLt
  unfold readU16le
  omega

theorem vertexData_length (model : Model) (prim : Primitive) :
    (vertexData model prim).length = (posAccOf model prim).count := by
  simp [vertexData]

theorem indexData_length (model : Model) (prim : Primitive) :
    (indexData model prim).length = (idxAccOf model prim).count := by
  simp [indexData]

theorem progress_refl (s : GState) : Progress s s :=
  ⟨⟨[], by simp⟩, ⟨[], by simp⟩, ⟨[], by simp⟩, fun h => h⟩

theorem progress_trans {s t u : GState} (h1 : Progress s t) (h2 : Progress t u) :
    Progress s u := by
  obtain ⟨⟨lv1, hv1⟩, ⟨li1, hi1, hb1⟩, ⟨ld1, hd1⟩, hinv1⟩ := h1
  obtain ⟨⟨lv2, hv2⟩, ⟨li2, hi2, hb2⟩, ⟨ld2, hd2⟩, hinv2⟩ := h2
  refine ⟨⟨lv1 ++ lv2, by simp [hv2, hv1]⟩,
    ⟨li1 ++ li2, by simp [hi2, hi1], ?_⟩,
    ⟨ld1 ++ ld2, by simp [hd2, hd1]⟩, fun h => hinv2 (hinv1 h)⟩
  intro x hx
  rcases List.mem_append.1 hx with h | h
  · exact hb1 x h
  · exact hb2 x h

theorem primStep_progress (model : Model) (A : Mat4) (s : GState)
    (prim : Primitive) : Progress s (primStep model A s prim) := by
  refine ⟨⟨vertexData model prim, rfl⟩,
    ⟨indexData model prim, rfl, ?_⟩,
    ⟨[⟨U32 (idxAccOf model prim).count, U32 s.indicies.length,
        U32 s.vertices.length, A⟩], rfl⟩, ?_⟩
  · intro x hx
    obtain ⟨i, _, rfl⟩ := List.mem_map.1 hx
    exact readU16le_lt _ _
  · intro hinv d hd
    simp only [primStep, List.mem_append, List.mem_singleton] at hd
    rcases hd with hd | rfl
    · have := hinv d hd
      simp only [primStep, List.length_append]
      omega
    · simp only [primStep, List.length_append, indexData_length]
      have h1 : U32 s.indicies.length ≤ s.indicies.length := Nat.mod_le _ _
      have h2 : U32 (idxAccOf model prim).count ≤ (idxAccOf model prim).count :=
        Nat.mod_le _ _
      have h3 : U32 s.vertices.length ≤ s.vertices.length := Nat.mod_le _ _
      constructor
      · omega
      · omega

theorem meshStep_progress (model : Model) (A : Mat4) :
    ∀ (prims : List Primitive) (s : GState),
      Progress s (prims.foldl (primStep model A) s)
  | [], s => progress_refl s
  | p :: ps, s => by
    have h1 := primStep_progress model A s p
    have h2 := meshStep_progress model A ps (primStep model A s p)
    simpa [List.foldl_cons] using progress_trans h1 h2

theorem meshVisit_progress (model : Model) (node : Node) (A : Mat4)
    (s : GState) : Progress s (meshVisit model node A s) := by
  unfold meshVisit
  by_cases h : 0 ≤ node.mesh
  · simpa [h] using meshStep_progress model A
      (model.meshes.getD node.mesh.toNat default).primitives s
  · simpa [h] using progress_refl s

theorem foldNodes_progress (f : Int → GState → Option GState)
    (hf : ∀ c st st', f c st = some st' → Progress st st') :
    ∀ (l : List Int) (s s' : GState),
      foldNodes f l s = some s' → Progress s s'
  | [], s, s', h => by
    simp only [foldNodes, Option.some.injEq] at h
    exact h ▸ progress_refl s
  | c :: cs, s, s', h => by
    simp only [foldNodes] at h
    cases hc : f c s with
    | none => rw [hc] at h; exact absurd h (by simp)
    | some s2 =>
      rw [hc] at h
      exact progress_trans (hf c s s2 hc) (foldNodes_progress f hf cs s2 s' h)

theorem load_gltf_node_progress (model : Model) :
    ∀ (fuel : Nat) (nodeId : Int) (T : Mat4) (s s' : GState),
      load_gltf_node model fuel nodeId T s = some s' → Progress s s'
  | 0, _, _, _, _, h => by simp [load_gltf_node] at h
  | fuel + 1, nodeId, T, s, s', h => by
    simp only [load_gltf_node] at h
    refine progress_trans (meshVisit_progress model
      (model.nodes.getD nodeId.toNat default)
      (mat4Mul (localOf (model.nodes.getD nodeId.toNat default)) T) s) ?_
    exact foldNodes_progress _
      (fun c st st' hc => load_gltf_node_progress model fuel c
        (mat4Mul (localOf (model.nodes.getD nodeId.toNat default)) T) st st' hc)
      _ _ _ h

theorem meshStep_draws (model : Model) (A : Mat4) :
    ∀ (prims : List Primitive) (s : GState),
      ∃ ld, (prims.foldl (primStep model A) s).drawObjects = s.drawObjects ++ ld ∧
        (∀ d ∈ ld, d.transform = A) ∧ ld.length = prims.length
  | [], s => ⟨[], by simp, by simp, rfl⟩
  | p :: ps, s => by
    obtain ⟨ld, hld, hA, hlen⟩ := meshStep_draws model A ps (primStep model A s p)
    refine ⟨⟨U32 (idxAccOf model p).count, U32 s.indicies.length,
      U32 s.vertices.length, A⟩ :: ld, ?_, ?_, by simp [hlen]⟩
    · simp only [List.foldl_cons] at *
      rw [hld]
      simp [primStep]
    · intro d hd
      rcases List.mem_cons.1 hd with rfl | hd
      · rfl
      · exact hA d hd

theorem foldNodes_mono {f g : Int → GState → Option GState}
    (hfg : ∀ c st st', f c st = some st' → g c st = some st') :
    ∀ (l : List Int) (s s' : GState),
      foldNodes f l s = some s' → foldNodes g l s = some s'
  | [], s, s', h => by simpa [foldNodes] using h
  | c :: cs, s, s', h => by
    simp only [foldNodes] at h ⊢
    cases hc : f c s with
    | none => rw [hc] at h; exact absurd h (by simp)
    | some s2 =>
      rw [hc] at h
      rw [hfg c s s2 hc]
      exact foldNodes_mono hfg cs s2 s' h

theorem load_gltf_node_mono (model : Model) :
    ∀ (n m : Nat), n ≤ m → ∀ (nodeId : Int) (T : Mat4) (s s' : GState),
      load_gltf_node model n nodeId T s = some s' →
      load_gltf_node model m nodeId T s = some s'
  | 0, _, _, _, _, _, _, h => by simp [load_gltf_node] at h
  | n + 1, m, hnm, nodeId, T, s, s', h => by
    obtain ⟨m', rfl⟩ : ∃ m', m = m' + 1 := ⟨m - 1, by omega⟩
    simp only [load_gltf_node] at h ⊢
    exact foldNodes_mono
      (fun c st st' hc =>
        load_gltf_node_mono model n m' (by omega) c _ st st' hc) _ _ _ h

theorem foldNodes_some (f : Int → GState → Option GState) :
    ∀ (l : List Int), (∀ c ∈ l, ∀ st, ∃ st', f c st = some st') →
      ∀ s, ∃ s', foldNodes f l s = some s'
  | [], _, s => ⟨s, rfl⟩
  | c :: cs, hf, s => by
    obtain ⟨s2, hs2⟩ := hf c (List.mem_cons_self c cs) s
    obtain ⟨s', hs'⟩ :=
      foldNodes_some f cs (fun d hd st => hf d (List.mem_cons_of_mem c hd) st) s2
    exact ⟨s', by simp [foldNodes, hs2, hs']⟩

theorem writeUniformLoop_lower (VP : Mat4) (base : Nat) :
    ∀ (ds : List DrawCmd) (i0 : Nat) (buf : Nat → ShaderUniform) (j : Nat),
      j < base + i0 → writeUniformLoop VP base ds i0 buf j = buf j
  | [], _, _, _, _ => rfl
  | d :: ds, i0, buf, j, h => by
    simp only [writeUniformLoop]
    rw [writeUniformLoop_lower VP base ds (i0 + 1) _ j (by omega)]
    unfold updateAt
    rw [if_neg (by omega)]

theorem writeUniformLoop_get (VP : Mat4) (base : Nat) :
    ∀ (ds : List DrawCmd) (i0 : Nat) (buf : Nat → ShaderUniform) (k : Nat)
      (h : k < ds.length),
      writeUniformLoop VP base ds i0 buf (base + i0 + k) =
        ⟨(ds.get ⟨k, h⟩).transform, VP⟩
  | d :: ds, i0, buf, 0, h => by
    simp only [writeUniformLoop]
    rw [writeUniformLoop_lower VP base ds (i0 + 1) _ (base + i0 + 0) (by omega)]
    simp [updateAt]
  | d :: ds, i0, buf, k + 1, h => by
    simp only [writeUniformLoop]
    have hk : k < ds.length := by simpa using Nat.lt_of_succ_lt_succ h
    have hrec := writeUniformLoop_get VP base ds (i0 + 1)
      (updateAt buf (base + i0) ⟨d.transform, VP⟩) k hk
    rw [show base + i0 + (k + 1) = base + (i0 + 1) + k by omega]
    rw [hrec]
    rfl

/-- Evaluating the traversal on the concrete model M0. -/
theorem loadM0_eq : load_gltf_node M0 2 0 mat4Id emptyGState = some GS1 := rfl

/-- A single fuel bound sufficient for every node of a list. -/
theorem listFuel (model : Model) :
    ∀ (l : List Int),
      (∀ c ∈ l, ∃ n, ∀ (T : Mat4) (s : GState),
        ∃ s', load_gltf_node model n c T s = some s') →
      ∃ N, ∀ c ∈ l, ∀ (T : Mat4) (s : GState),
        ∃ s', load_gltf_node model N c T s = some s'
  | [], _ => ⟨1, by simp⟩
  | c :: cs, hf => by
    obtain ⟨n, hn⟩ := hf c (List.mem_cons_self c cs)
    obtain ⟨N, hN⟩ := listFuel model cs
      (fun d hd => hf d (List.mem_cons_of_mem c hd))
    refine ⟨max n N, ?_⟩
    intro d hd T s
    rcases List.mem_cons.1 hd with rfl | hd
    · obtain ⟨s', hs'⟩ := hn T s
      exact ⟨s', load_gltf_node_mono model n (max n N) (Nat.le_max_left n N)
        d T s s' hs'⟩
    · obtain ⟨s', hs'⟩ := hN d hd T s
      exact ⟨s', load_gltf_node_mono model N (max n N) (Nat.le_max_right n N)
        d T s s' hs'⟩

/-- On a well-founded children relation, every node has a fuel bound under
which the traversal completes from every transform and state. -/
theorem load_total_aux (model : Model) (hwf : WellFounded (childRel model))
    (nodeId : Int) :
    ∃ n, ∀ (T : Mat4) (s : GState),
      ∃ s', load_gltf_node model n nodeId T s = some s' := by
  induction nodeId using WellFounded.induction hwf with
  | _ x ih =>
    obtain ⟨N, hN⟩ := listFuel model (model.nodes.getD x.toNat default).children
      (fun c hc => ih c hc)
    refine ⟨N + 1, ?_⟩
    intro T s
    simp only [load_gltf_node]
    exact foldNodes_some _ (model.nodes.getD x.toNat default).children
      (fun c hc st => hN c hc _ st) _

/-! The claim theorems. -/

/-- C1: the accumulated transform used for a node is its local transform (from
node.matrix when it has 16 elements, identity otherwise) multiplied by the
accumulated transform of its parent: it is the transform handed to the mesh
visit and to every recursive child call, every DrawCmd appended by the mesh
visit of the node stores it, and the root nodes of the default scene are
started from the identity. -/
theorem spec_C1 (model : Model) (fuel : Nat) (nodeId : Int) (T : Mat4)
    (s : GState) :
    (load_gltf_node model (fuel + 1) nodeId T s =
      foldNodes
        (fun c st => load_gltf_node model fuel c (claimAcc model nodeId T) st)
        (model.nodes.getD nodeId.toNat default).children
        (meshVisit model (model.nodes.getD nodeId.toNat default)
          (claimAcc model nodeId T) s)) ∧
    (∀ d ∈ ((meshVisit model (model.nodes.getD nodeId.toNat default)
        (claimAcc model nodeId T) s).drawObjects).drop s.drawObjects.length,
      d.transform = claimAcc model nodeId T) ∧
    (∀ s0 : GState, sceneFold model s0 =
      foldNodes
        (fun r st => load_gltf_node model (model.nodes.length + 1) r mat4Id st)
        (model.scenes.getD model.defaultScene.toNat default).nodes s0) :=
  by
  refine ⟨?_, ?_, fun s0 => rfl⟩
  · simp only [load_gltf_node, claimAcc, localOf]
  · intro d hd
    unfold meshVisit at hd
    by_cases h : 0 ≤ (model.nodes.getD nodeId.toNat default).mesh
    · rw [if_pos h] at hd
      obtain ⟨ld, hld, hA, _⟩ := meshStep_draws model (claimAcc model nodeId T)
        (model.meshes.getD
          (model.nodes.getD nodeId.toNat default).mesh.toNat default).primitives s
      simp only [meshStep] at hd
      rw [hld, List.drop_left] at hd
      exact hA d hd
    · rw [if_neg h] at hd
      simp at hd

/-- C1 witness: on the concrete model M0, the one DrawCmd appended for node 0
carries the accumulated transform required by the claim. -/
theorem spec_C1_witness :
    (⟨U32 2, U32 0, U32 0, claimAcc M0 0 mat4Id⟩ : DrawCmd).transform =
      claimAcc M0 0 mat4Id :=
  (spec_C1 M0 0 0 mat4Id emptyGState).2.1
    ⟨U32 2, U32 0, U32 0, claimAcc M0 0 mat4Id⟩ (List.Mem.head _)

/-- C2: one DrawCmd is appended per primitive (for a whole mesh, as many
commands as primitives), and when the buffer sizes and the index accessor
count fit in 32 bits the appended DrawCmd records exactly the index accessor
count, the pre-append index buffer length and the pre-append vertex buffer
length. -/
theorem spec_C2 (model : Model) (A : Mat4) :
    (∀ (prim : Primitive) (s : GState),
      s.indicies.length < 4294967296 → s.vertices.length < 4294967296 →
      (idxAccOf model prim).count < 4294967296 →
      (primStep model A s prim).drawObjects = s.drawObjects ++
        [⟨(idxAccOf model prim).count, s.indicies.length, s.vertices.length, A⟩]) ∧
    (∀ (mesh : Mesh) (s : GState),
      (meshStep model mesh A s).drawObjects.length =
        s.drawObjects.length + mesh.primitives.length) := by
  constructor
  · intro prim s hi hv hc
    simp only [primStep, U32]
    rw [Nat.mod_eq_of_lt hi, Nat.mod_eq_of_lt hv, Nat.mod_eq_of_lt hc]
  · intro mesh s
    obtain ⟨ld, hld, _, hlen⟩ := meshStep_draws model A mesh.primitives s
    simp only [meshStep] at *
    rw [hld]
    simp [hlen]

/-- C2 witness: on the concrete model M0 the single primitive of mesh 0
appends exactly one DrawCmd with count 2 and offsets 0, and the mesh appends
exactly one command. -/
theorem spec_C2_witness :
    ((primStep M0 mat4Id emptyGState P0).drawObjects =
      emptyGState.drawObjects ++
        [⟨(idxAccOf M0 P0).count, emptyGState.indicies.length,
          emptyGState.vertices.length, mat4Id⟩]) ∧
    (meshStep M0 Me0 mat4Id emptyGState).drawObjects.length =
      emptyGState.drawObjects.length + Me0.primitives.length :=
  ⟨(spec_C2 M0 mat4Id).1 P0 emptyGState (by decide) (by decide) (by decide),
   (spec_C2 M0 mat4Id).2 Me0 emptyGState⟩

/-- C3: load_gltf_model throws exactly when the loader error string is
non-empty or the loader returned failure, a warning alone never causes a
throw (the warn argument is universally quantified and never examined by the
conditions), and at a throw the global state is exactly the state before
loading, so the buffers are still empty. -/
theorem spec_C3 (ret : Bool) (err warn : String) (model : Model) (s0 : GState) :
    ((∃ m st, load_gltf_model ret err warn model s0 = LoadOutcome.threw m st) ↔
      (err ≠ "" ∨ ret = false)) ∧
    (∀ m st, load_gltf_model ret err warn model s0 = LoadOutcome.threw m st →
      st = s0) := by
  unfold load_gltf_model
  by_cases herr : err = ""
  · rw [if_neg (by simp [herr])]
    by_cases hret : ret = false
    · rw [if_pos hret]
      constructor
      · constructor
        · intro _
          exact Or.inr hret
        · intro _
          exact ⟨"Fail to parse glTF", s0, rfl⟩
      · intro m st h
        cases h
        rfl
    · rw [if_neg hret]
      cases hs : sceneFold model s0 with
      | some s =>
        constructor
        · constructor
          · rintro ⟨m, st, h⟩
            cases h
          · rintro (h | h)
            · exact absurd herr h
            · exact absurd h hret
        · intro m st h
          cases h
      | none =>
        constructor
        · constructor
          · rintro ⟨m, st, h⟩
            cases h
          · rintro (h | h)
            · exact absurd herr h
            · exact absurd h hret
        · intro m st h
          cases h
  · rw [if_pos herr]
    constructor
    · constructor
      · intro _
        exact Or.inl herr
      · intro _
        exact ⟨"glTF parsing error", s0, rfl⟩
    · intro m st h
      cases h
      rfl

/-- C3 witness: with a non-empty error string the loader throws and the state
handed to the throw is the empty initial state; the characterization also
reports that a throw happens there. -/
theorem spec_C3_witness :
    (∃ m st, load_gltf_model true "boom" "warned" M0 emptyGState =
      LoadOutcome.threw m st) ∧ emptyGState = emptyGState :=
  ⟨(spec_C3 true "boom" "warned" M0 emptyGState).1.mpr (Or.inl (by decide)),
   (spec_C3 true "boom" "warned" M0 emptyGState).2 "glTF parsing error"
     emptyGState rfl⟩

/-- C4: the render callback never modifies vertices, indicies or drawObjects:
after any sequence of frames the three geometry fields equal their values at
the end of loading. -/
theorem spec_C4 (viewFn projFn : ℚ → Mat4) (ctxs : List FrameCtx) (s : RState) :
    (runFrames viewFn projFn ctxs s).vertices = s.vertices ∧
    (runFrames viewFn projFn ctxs s).indicies = s.indicies ∧
    (runFrames viewFn projFn ctxs s).drawObjects = s.drawObjects := by
  induction ctxs generalizing s with
  | nil => exact ⟨rfl, rfl, rfl⟩
  | cons c cs ih =>
    have h := ih (renderFrame viewFn projFn c s)
    simp only [runFrames, List.foldl_cons] at *
    exact h

/-- C5: in every frame, the uniform written for draw i of swapchain image
imageIndex sits at slot imageIndex * drawObjects.length + i, its modelMtx is
the transform of drawObjects[i], and its viewProjMtx is the product of the
projection and view matrices of that frame, which are recomputed from the
frame time (and aspect) each frame; the view-projection factor is the same
expression for every i of the frame. -/
theorem spec_C5 (viewFn projFn : ℚ → Mat4) (ctx : FrameCtx) (s : RState)
    (i : Nat) (h : i < s.drawObjects.length) :
    (renderFrame viewFn projFn ctx s).uniforms
        (ctx.imageIndex * s.drawObjects.length + i) =
      ⟨(s.drawObjects.get ⟨i, h⟩).transform,
        mat4Mul (renderFrame viewFn projFn ctx s).projMtx
          (renderFrame viewFn projFn ctx s).viewMtx⟩ ∧
    (renderFrame viewFn projFn ctx s).viewMtx = viewFn ctx.time ∧
    (renderFrame viewFn projFn ctx s).projMtx =
      flip11 (projFn ((ctx.width : ℚ) / (ctx.height : ℚ))) := by
  refine ⟨?_, rfl, rfl⟩
  have hw := writeUniformLoop_get
    (mat4Mul (flip11 (projFn ((ctx.width : ℚ) / (ctx.height : ℚ))))
      (viewFn ctx.time))
    (ctx.imageIndex * s.drawObjects.length) s.drawObjects 0 s.uniforms i h
  simp only [Nat.add_zero] at hw
  exact hw

/-- C5 witness: a concrete frame on the one-draw render state RS0. -/
theorem spec_C5_witness :
    (renderFrame (fun _ => mat4Id) (fun _ => mat4Id) ⟨0, 0, 1, 1⟩ RS0).uniforms
        (0 * RS0.drawObjects.length + 0) =
      ⟨(RS0.drawObjects.get ⟨0, by decide⟩).transform,
        mat4Mul
          (renderFrame (fun _ => mat4Id) (fun _ => mat4Id) ⟨0, 0, 1, 1⟩ RS0).projMtx
          (renderFrame (fun _ => mat4Id) (fun _ => mat4Id) ⟨0, 0, 1, 1⟩ RS0).viewMtx⟩ :=
  (spec_C5 (fun _ => mat4Id) (fun _ => mat4Id) ⟨0, 0, 1, 1⟩ RS0 0 (by decide)).1

/-- C6: the flattening only appends: one primitive grows the vertex buffer by
exactly the POSITION accessor count and the index buffer by exactly the index
accessor count, a completed traversal only extends both buffers (so their
lengths never decrease), and the DrawCmd bounds invariant (firstIndex +
indexCount within the index buffer, vertexOffset within the vertex buffer)
holds of every recorded command from creation onward. -/
theorem spec_C6 (model : Model) :
    (∀ (A : Mat4) (s : GState) (prim : Primitive),
      (primStep model A s prim).vertices.length =
          s.vertices.length + (posAccOf model prim).count ∧
      (primStep model A s prim).indicies.length =
          s.indicies.length + (idxAccOf model prim).count) ∧
    (∀ (fuel : Nat) (nodeId : Int) (T : Mat4) (s s' : GState),
      load_gltf_node model fuel nodeId T s = some s' →
      (∃ lv, s'.vertices = s.vertices ++ lv) ∧
      (∃ li, s'.indicies = s.indicies ++ li) ∧
      s.vertices.length ≤ s'.vertices.length ∧
      s.indicies.length ≤ s'.indicies.length) ∧
    (∀ (fuel : Nat) (nodeId : Int) (T : Mat4) (s s' : GState),
      load_gltf_node model fuel nodeId T s = some s' →
      DrawInv s → DrawInv s') := by
  refine ⟨?_, ?_, ?_⟩
  · intro A s prim
    constructor
    · simp [primStep, vertexData_length]
    · simp [primStep, indexData_length]
  · intro fuel nodeId T s s' hload
    obtain ⟨⟨lv, hv⟩, ⟨li, hi, _⟩, _, _⟩ :=
      load_gltf_node_progress model fuel nodeId T s s' hload
    exact ⟨⟨lv, hv⟩, ⟨li, hi⟩, by simp [hv], by simp [hi]⟩
  · intro fuel nodeId T s s' hload
    exact (load_gltf_node_progress model fuel nodeId T s s' hload).2.2.2

/-- C6 witness: one traversal step on the concrete model M0, starting from the
empty state (which satisfies the bounds invariant vacuously). -/
theorem spec_C6_witness :
    ((primStep M0 mat4Id emptyGState P0).vertices.length =
        emptyGState.vertices.length + (posAccOf M0 P0).count) ∧
    (emptyGState.vertices.length ≤ GS1.vertices.length) ∧ DrawInv GS1 :=
  ⟨((spec_C6 M0).1 mat4Id emptyGState P0).1,
   ((spec_C6 M0).2.1 2 0 mat4Id emptyGState GS1 loadM0_eq).2.2.1,
   (spec_C6 M0).2.2 2 0 mat4Id emptyGState GS1 loadM0_eq
     (fun d hd => absurd hd (List.not_mem_nil d))⟩

/-- C7: every vertex appended for a primitive has the flat color 0.7 and a
position read as three consecutive 32-bit floats at byte offset
view.byteOffset + accessor.byteOffset + stride * i of the POSITION buffer. -/
theorem spec_C7 (model : Model) (A : Mat4) (s : GState) (prim : Primitive) :
    ∀ v ∈ ((primStep model A s prim).vertices).drop s.vertices.length,
      v.color = (7/10, 7/10, 7/10) ∧
      ∃ i < (posAccOf model prim).count,
        v.pos = (readU32le (posBufOf model prim).data (posBase model prim i),
                 readU32le (posBufOf model prim).data (posBase model prim i + 4),
                 readU32le (posBufOf model prim).data (posBase model prim i + 8)) := by
  intro v hv
  simp only [primStep, List.drop_left] at hv
  obtain ⟨i, hi, rfl⟩ := List.mem_map.1 hv
  rw [List.mem_range] at hi
  exact ⟨rfl, i, hi, rfl⟩

/-- C7 witness: the one vertex of the concrete primitive P0 of M0. -/
theorem spec_C7_witness :
    (⟨(readU32le B0.data 0, readU32le B0.data 4, readU32le B0.data 8),
       (7/10, 7/10, 7/10)⟩ : Vertex).color = (7/10, 7/10, 7/10) ∧
    ∃ i < (posAccOf M0 P0).count,
      (⟨(readU32le B0.data 0, readU32le B0.data 4, readU32le B0.data 8),
         (7/10, 7/10, 7/10)⟩ : Vertex).pos =
        (readU32le (posBufOf M0 P0).data (posBase M0 P0 i),
         readU32le (posBufOf M0 P0).data (posBase M0 P0 i + 4),
         readU32le (posBufOf M0 P0).data (posBase M0 P0 i + 8)) :=
  spec_C7 M0 mat4Id emptyGState P0
    ⟨(readU32le B0.data 0, readU32le B0.data 4, readU32le B0.data 8),
     (7/10, 7/10, 7/10)⟩ (List.Mem.head _)

/-- C8: when the node-children relation of the model is acyclic (well-founded,
as it is for every finite tree or DAG) the depth-first recursion of
load_gltf_node terminates: some fuel completes the traversal, and every larger
fuel returns the same result, so the traversal denotes a total function. -/
theorem spec_C8 (model : Model) (hwf : WellFounded (childRel model))
    (nodeId : Int) (T : Mat4) (s : GState) :
    ∃ n, (load_gltf_node model n nodeId T s).isSome ∧
      ∀ m, n ≤ m →
        load_gltf_node model m nodeId T s = load_gltf_node model n nodeId T s := by
  obtain ⟨n, hn⟩ := load_total_aux model hwf nodeId
  obtain ⟨s', hs'⟩ := hn T s
  refine ⟨n, by simp [hs'], ?_⟩
  intro m hm
  rw [hs', load_gltf_node_mono model n m hm nodeId T s s' hs']

/-- C8 witness: the empty model has no children anywhere, so its children
relation is well-founded; the traversal of node 0 completes and is
fuel-independent from fuel 1 on. -/
theorem spec_C8_witness :
    ∃ n, (load_gltf_node ⟨[], [], [], [], [], [], -1⟩ n 0 mat4Id emptyGState).isSome ∧
      ∀ m, n ≤ m →
        load_gltf_node ⟨[], [], [], [], [], [], -1⟩ m 0 mat4Id emptyGState =
          load_gltf_node ⟨[], [], [], [], [], [], -1⟩ n 0 mat4Id emptyGState :=
  spec_C8 ⟨[], [], [], [], [], [], -1⟩
    ⟨fun a => Acc.intro a fun y hy =>
      absurd hy (by simp only [childRel, List.getD_nil]; exact List.not_mem_nil y)⟩
    0 mat4Id emptyGState

/-- C9: a completed traversal only ever adds index values below 65536 (so if
the buffer starts with values below 65536 every element stays below 65536),
and each primitive appends exactly the 16-bit unsigned little-endian reads at
the index accessor addresses, widened to 32 bits (exactly, since they are
below 2^16 <= 2^32). -/
theorem spec_C9 (model : Model) :
    (∀ (fuel : Nat) (nodeId : Int) (T : Mat4) (s s' : GState),
      load_gltf_node model fuel nodeId T s = some s' →
      (∀ x ∈ s.indicies, x < 65536) → ∀ x ∈ s'.indicies, x < 65536) ∧
    (∀ (A : Mat4) (s : GState) (prim : Primitive),
      (primStep model A s prim).indicies =
        s.indicies ++ (List.range (idxAccOf model prim).count).map
          (fun i => readU16le (idxBufOf model prim).data (idxBase model prim i))) := by
  constructor
  · intro fuel nodeId T s s' hload hs x hx
    obtain ⟨_, ⟨li, hli, hbound⟩, _, _⟩ :=
      load_gltf_node_progress model fuel nodeId T s s' hload
    rw [hli] at hx
    rcases List.mem_append.1 hx with h | h
    · exact hs x h
    · exact hbound x h
  · intro A s prim
    rfl

/-- C9 witness: the indices flattened from the concrete model M0 are 5 and 7,
both below 65536. -/
theorem spec_C9_witness :
    (∀ x ∈ GS1.indicies, x < 65536) ∧
    (primStep M0 mat4Id emptyGState P0).indicies =
      emptyGState.indicies ++ (List.range (idxAccOf M0 P0).count).map
        (fun i => readU16le (idxBufOf M0 P0).data (idxBase M0 P0 i)) :=
  ⟨(spec_C9 M0).1 2 0 mat4Id emptyGState GS1 loadM0_eq
      (fun x hx => absurd hx (List.not_mem_nil x)),
   (spec_C9 M0).2 mat4Id emptyGState P0⟩

/-- C10: the 16 reads of node.matrix happen only under the 16-element check,
and each read index 4*c + r is then within bounds (so getD never falls back
to its default and agrees with the checked access); any other matrix size
yields the identity local transform; and a node with mesh < 0 appends
nothing: the recursion proceeds into the children from the unchanged state. -/
theorem spec_C10 (model : Model) (fuel : Nat) (nodeId : Int) (T : Mat4)
    (s : GState) (node : Node) :
    (node.matrix.length = 16 →
      ∀ r c : Fin 4, ∃ hlt : 4 * c.val + r.val < node.matrix.length,
        (localOf node).entry r c = node.matrix.get ⟨4 * c.val + r.val, hlt⟩) ∧
    (node.matrix.length ≠ 16 → localOf node = mat4Id) ∧
    ((model.nodes.getD nodeId.toNat default).mesh < 0 →
      load_gltf_node model (fuel + 1) nodeId T s =
        foldNodes
          (fun c st => load_gltf_node model fuel c
            (mat4Mul (localOf (model.nodes.getD nodeId.toNat default)) T) st)
          (model.nodes.getD nodeId.toNat default).children s) := by
  refine ⟨?_, ?_, ?_⟩
  · intro h16 r c
    have hlt : 4 * c.val + r.val < node.matrix.length := by
      have hr := r.isLt
      have hc := c.isLt
      omega
    refine ⟨hlt, ?_⟩
    simp only [localOf, if_pos h16, mat4OfList]
    rw [List.getD_eq_getElem node.matrix 0 hlt]
    exact (List.get_eq_getElem node.matrix ⟨4 * c.val + r.val, hlt⟩).symm
  · intro h16
    simp [localOf, h16]
  · intro hmesh
    simp only [load_gltf_node, meshVisit, if_neg (Int.not_le.mpr hmesh)]

/-- C10 witness: a node with a 16-element matrix has all its reads in bounds
(shown at r = 1, c = 2, reading element 9), a node with an empty matrix gets
the identity, and the meshless node of the model with one child-free node is
traversed without touching the state. -/
theorem spec_C10_witness :
    (∃ hlt : 4 * (2 : Fin 4).val + (1 : Fin 4).val < (N16.matrix).length,
      (localOf N16).entry 1 2 = N16.matrix.get ⟨4 * (2 : Fin 4).val + (1 : Fin 4).val, hlt⟩) ∧
    (localOf N0 = mat4Id) ∧
    load_gltf_node MNoMesh 1 0 mat4Id emptyGState =
      foldNodes
        (fun c st => load_gltf_node MNoMesh 0 c
          (mat4Mul (localOf (MNoMesh.nodes.getD (0 : Int).toNat default)) mat4Id) st)
        (MNoMesh.nodes.getD (0 : Int).toNat default).children emptyGState :=
  ⟨(spec_C10 MNoMesh 0 0 mat4Id emptyGState N16).1 (by decide) 1 2,
   (spec_C10 MNoMesh 0 0 mat4Id emptyGState N0).2.1 (by decide),
   (spec_C10 MNoMesh 0 0 mat4Id emptyGState N0).2.2 (by decide)⟩

end GltfViewer
